import Mathlib

/-!
Verification of the hospital-management core (`src/hms_core.py`).

The Python source is a single-operator CLI over SQLite.  We embed its data
model and the three operations the claims concern — `InventoryManager.update_stock`,
`OperationsManager.schedule_appointment` and `OperationsManager.generate_bill` —
as pure Lean functions over an explicit database state.  Console input is made
explicit: each operation takes the values the operator would type (a
`generate_bill` session is a `BillScript`, its item-loop a list of `BillEvent`s,
where `BillEvent.abort` models a `ValueError` raised by `int(input(...))`
mid-loop, which the source catches at the bottom of `generate_bill`).

Monetary values (`price_per_unit`, costs, `total_amount`) are modelled as exact
rationals; the source keeps them in Python floats and applies two-decimal
rounding only in `f"...{x:.2f}"` format strings, which we mirror with `fmt2`.
SQLite CHECK constraints that the operations can actually hit are modelled at
the point of the INSERT: `bills.total_amount >= 0` (an `IntegrityError` is
caught by `DatabaseManager.execute_query`, so a violating INSERT is a silent
no-op) and `inventory.quantity >= 0` on `add_item`.
-/

/-- A row of the `patients` table (only the columns the core operations read). -/
structure Patient where
  patient_id : Int
  full_name : String
  deriving Repr, DecidableEq

/-- A row of the `staff` table (only the columns the core operations read). -/
structure Staff where
  staff_id : Int
  full_name : String
  role : String
  deriving Repr, DecidableEq

/-- A row of the `inventory` table (the `expiry_date` column is never read). -/
structure InventoryItem where
  item_id : Int
  item_name : String
  category : String
  quantity : Int
  price_per_unit : ℚ
  reorder_level : Int
  deriving Repr, DecidableEq

/-- A row of the `appointments` table. -/
structure Appointment where
  patient_id : Int
  doctor_id : Int
  scheduled_time : String
  status : String
  notes : String
  deriving Repr, DecidableEq

/-- A row of the `bills` table. -/
structure Bill where
  patient_id : Int
  items_summary : String
  total_amount : ℚ
  payment_status : String
  deriving Repr, DecidableEq

/-- The five tables created by `DatabaseManager.initialize_schema`. -/
structure DBState where
  patients : List Patient
  staff : List Staff
  inventory : List InventoryItem
  appointments : List Appointment
  bills : List Bill
  deriving Repr, DecidableEq

/-- Schema default of `bills.payment_status` (`payment_status TEXT DEFAULT 'Pending'`). -/
def bills_payment_status_default : String := "Pending"

/-- Schema default of `appointments.status` (`status TEXT DEFAULT 'Scheduled'`). -/
def appointments_status_default : String := "Scheduled"

/-- `SELECT ... FROM inventory WHERE item_name = ?` via `fetch_one`:
the first row whose name matches. -/
def findItemByName (db : DBState) (name : String) : Option InventoryItem :=
  db.inventory.find? (fun it => it.item_name == name)

/-- `SELECT ... FROM patients WHERE patient_id = ?` via `fetch_one`. -/
def findPatient (db : DBState) (pid : Int) : Option Patient :=
  db.patients.find? (fun p => p.patient_id == pid)

/-- `SELECT 1 FROM staff WHERE staff_id = ? AND role = 'Doctor'` via `fetch_one`. -/
def findDoctor (db : DBState) (did : Int) : Option Staff :=
  db.staff.find? (fun s => s.staff_id == did && s.role == "Doctor")

/-- `UPDATE inventory SET quantity = ? WHERE item_id = ?`. -/
def setQuantity (db : DBState) (iid : Int) (q : Int) : DBState :=
  { db with inventory :=
      db.inventory.map (fun it => if it.item_id == iid then { it with quantity := q } else it) }

/-- The stored quantity of the item with id `iid` (first matching row). -/
def getQuantity (db : DBState) (iid : Int) : Option Int :=
  (db.inventory.find? (fun it => it.item_id == iid)).map (fun it => it.quantity)

/-- The exact rational `q` rounded to a whole number of cents:
`⌊100 q + 1/2⌋ = ⌊(200 num + den) / (2 den)⌋` as a floor division. -/
def centsOf (q : ℚ) : Int :=
  Int.fdiv (200 * q.num + (q.den : Int)) (2 * (q.den : Int))

/-- Python `f"{x:.2f}"` on an exact rational: round to a whole number of cents
(the source rounds only inside format strings, never the stored values). -/
def fmt2 (q : ℚ) : String :=
  let cents : Int := centsOf q
  let a := cents.natAbs
  let frac := a % 100
  (if cents < 0 then "-" else "") ++ toString (a / 100) ++ "."
    ++ (if frac < 10 then "0" else "") ++ toString frac

/-- Outcome of `InventoryManager.update_stock` (which branch of the source ran). -/
inductive StockUpdateResult
  | itemNotFound
  | negativeStock
  | updated (newQty : Int)
  deriving Repr, DecidableEq

/-- `InventoryManager.update_stock`: the operator names an item and types a
signed `change`; the update is refused when the resulting stock would be
negative. -/
def update_stock (db : DBState) (item_name : String) (change : Int) :
    DBState × StockUpdateResult :=
  match findItemByName db item_name with
  | none => (db, .itemNotFound)
  | some item =>
    let new_qty := item.quantity + change
    if new_qty < 0 then (db, .negativeStock)
    else (setQuantity db item.item_id new_qty, .updated new_qty)

/-- `InventoryManager.add_item`: INSERT refused when the name already exists
(UNIQUE) or the initial quantity is negative (CHECK `quantity >= 0`); in both
cases `execute_query` swallows the `IntegrityError` and nothing is written. -/
def add_item (db : DBState) (name category : String) (qty : Int) (price : ℚ)
    (reorder : Int) : DBState × Bool :=
  if (findItemByName db name).isSome then (db, false)
  else if qty < 0 then (db, false)
  else
    let iid := ((db.inventory.map (fun it => it.item_id)).foldr max 0) + 1
    ({ db with inventory := db.inventory ++ [⟨iid, name, category, qty, price, reorder⟩] },
     true)

/-- Outcome of `OperationsManager.schedule_appointment`. -/
inductive ScheduleResult
  | patientNotFound
  | invalidDoctor
  | confirmed
  deriving Repr, DecidableEq

/-- `OperationsManager.schedule_appointment`: check the patient id first, then
that the doctor id is a staff row with role `'Doctor'`; on success INSERT an
appointment without a `status` value, so the schema default `'Scheduled'`
applies. -/
def schedule_appointment (db : DBState) (pid did : Int) (date_str notes : String) :
    DBState × ScheduleResult :=
  if (findPatient db pid).isNone then (db, .patientNotFound)
  else
    match findDoctor db did with
    | none => (db, .invalidDoctor)
    | some _ =>
      ({ db with appointments :=
          db.appointments ++ [⟨pid, did, date_str, appointments_status_default, notes⟩] },
       .confirmed)

/-- One operator interaction of the `while True` item loop of `generate_bill`:
either a draw request (item name and quantity), or a `ValueError` from a
non-numeric quantity, which aborts the whole transaction. -/
inductive BillEvent
  | draw (item_name : String) (req_qty : Int)
  | abort
  deriving Repr, DecidableEq

/-- The mutable locals of `generate_bill` while the item loop runs:
the database handle, `bill_items` and `total_amount`. -/
structure RunState where
  db : DBState
  bill_items : List String
  total_amount : ℚ
  deriving Repr, DecidableEq

/-- Outcome of one draw request inside the item loop. -/
inductive DrawResult
  | itemNotFound
  | insufficient (available : Int)
  | added (cost : ℚ)
  deriving Repr, DecidableEq

/-- One iteration of the item loop of `generate_bill` on a draw request:
look the item up by name; reject the line if `req_qty > available`; otherwise
UPDATE the stock to `available - req_qty`, append the formatted line and add
`cost = price_per_unit * req_qty` to the running total. -/
def processDraw (st : RunState) (item_name : String) (req_qty : Int) :
    RunState × DrawResult :=
  match findItemByName st.db item_name with
  | none => (st, .itemNotFound)
  | some item =>
    if req_qty > item.quantity then (st, .insufficient item.quantity)
    else
      let new_qty := item.quantity - req_qty
      let cost := item.price_per_unit * (req_qty : ℚ)
      ({ db := setQuantity st.db item.item_id new_qty,
         bill_items := st.bill_items
           ++ [item_name ++ " x" ++ toString req_qty ++ ": $" ++ fmt2 cost],
         total_amount := st.total_amount + cost },
       .added cost)

/-- The item loop of `generate_bill`: process draw requests in order; a
rejected line leaves the state unchanged and the loop continues; an `abort`
event raises `ValueError`, returning the state reached so far with the
aborted flag set. -/
def runEvents : RunState → List BillEvent → RunState × Bool
  | st, [] => (st, false)
  | st, .abort :: _ => (st, true)
  | st, .draw n q :: rest => runEvents (processDraw st n q).1 rest

/-- Everything the operator types during one `generate_bill` session: the
patient id, the consultation fee (`none` when the prompt is answered `n`),
and the item-loop events. -/
structure BillScript where
  pid : Int
  consultation_fee : Option ℚ
  events : List BillEvent
  deriving Repr, DecidableEq

/-- The locals of `generate_bill` just before the item loop: `bill_items`
and `total_amount` hold the consultation fee line when one was entered. -/
def initialRunState (db : DBState) (fee : Option ℚ) : RunState :=
  match fee with
  | none => ⟨db, [], 0⟩
  | some f => ⟨db, ["Consultation: $" ++ fmt2 f], f⟩

/-- Outcome of `OperationsManager.generate_bill`. -/
inductive BillResult
  | patientNotFound
  | aborted
  | invoiceRejected (total : ℚ)
  | invoiceInserted (total : ℚ)
  deriving Repr, DecidableEq

/-- `OperationsManager.generate_bill`: validate the patient, run the item loop
(each stock UPDATE commits immediately via `execute_query`), then INSERT one
bill row with `payment_status` literally `'Unpaid'`.  A `ValueError` mid-loop
is caught after the draws already committed and nothing is rolled back.  The
CHECK `total_amount >= 0` makes the INSERT a caught, silent no-op when the
accumulated total is negative. -/
def generate_bill (db : DBState) (script : BillScript) : DBState × BillResult :=
  match findPatient db script.pid with
  | none => (db, .patientNotFound)
  | some _ =>
    let r := runEvents (initialRunState db script.consultation_fee) script.events
    if r.2 then (r.1.db, .aborted)
    else
      let items_str := String.intercalate "; " r.1.bill_items
      if r.1.total_amount < 0 then (r.1.db, .invoiceRejected r.1.total_amount)
      else
        ({ r.1.db with bills := r.1.db.bills
            ++ [⟨script.pid, items_str, r.1.total_amount, "Unpaid"⟩] },
         .invoiceInserted r.1.total_amount)

/-- The per-line costs that the item loop accepts onto the bill, computed
against the evolving stock levels: a draw is priced `price_per_unit * req_qty`
exactly when the loop accepts it, and an abort ends the list. -/
def lineCosts (db : DBState) : List BillEvent → List ℚ
  | [] => []
  | .abort :: _ => []
  | .draw n q :: rest =>
    match findItemByName db n with
    | none => lineCosts db rest
    | some item =>
      if q > item.quantity then lineCosts db rest
      else item.price_per_unit * (q : ℚ)
        :: lineCosts (setQuantity db item.item_id (item.quantity - q)) rest

/-- The cost contributed by the consultation-fee prompt. -/
def feeTotal : Option ℚ → ℚ
  | none => 0
  | some f => f

/-- The non-negative-stock invariant (schema CHECK `quantity >= 0`). -/
def InvOK (db : DBState) : Prop :=
  ∀ it ∈ db.inventory, 0 ≤ it.quantity

instance (db : DBState) : Decidable (InvOK db) := by
  unfold InvOK; infer_instance

/-- A concrete inventory row used to instantiate the theorems. -/
def sampleItem : InventoryItem :=
  ⟨1, "Paracetamol", "Medicine", 50, 2, 10⟩

/-- A small concrete store used to instantiate the theorems: one patient,
one doctor, one nurse, one inventory item, no appointments, no bills. -/
def sampleDB : DBState :=
  { patients := [⟨1, "Alice"⟩],
    staff := [⟨1, "Dr. Lee", "Doctor"⟩, ⟨2, "Nina", "Nurse"⟩],
    inventory := [sampleItem],
    appointments := [],
    bills := [] }

/-- The loop state at the start of an item loop over the sample store with no
consultation fee. -/
def sampleRun : RunState := ⟨sampleDB, [], 0⟩

/-! ### Basic facts about the embedded store operations -/

theorem setQuantity_bills (db : DBState) (iid q : Int) :
    (setQuantity db iid q).bills = db.bills := rfl

theorem setQuantity_patients (db : DBState) (iid q : Int) :
    (setQuantity db iid q).patients = db.patients := rfl

theorem findItemByName_mem {db : DBState} {name : String} {item : InventoryItem}
    (h : findItemByName db name = some item) : item ∈ db.inventory :=
  List.mem_of_find?_eq_some h

theorem findItemByName_name {db : DBState} {name : String} {item : InventoryItem}
    (h : findItemByName db name = some item) : item.item_name = name := by
  have := List.find?_some h
  simpa using this

theorem getQuantity_setQuantity_aux (iid : Int) (q : Int) :
    ∀ l : List InventoryItem, (∃ it ∈ l, it.item_id = iid) →
    ((l.map (fun it => if it.item_id == iid then { it with quantity := q } else it)).find?
        (fun it => it.item_id == iid)).map (fun it => it.quantity) = some q := by
  intro l
  induction l with
  | nil => rintro ⟨it, hm, _⟩; simp at hm
  | cons hd tl ih =>
    rintro ⟨it, hm, hit⟩
    by_cases hhd : hd.item_id = iid
    · simp [List.find?_cons, hhd]
    · rcases List.mem_cons.mp hm with rfl | hm2
      · exact absurd hit hhd
      · simpa [List.find?_cons, hhd] using ih ⟨it, hm2, hit⟩

theorem getQuantity_setQuantity {db : DBState} {iid : Int} {item : InventoryItem}
    (hmem : item ∈ db.inventory) (hid : item.item_id = iid) (q : Int) :
    getQuantity (setQuantity db iid q) iid = some q := by
  unfold getQuantity setQuantity
  exact getQuantity_setQuantity_aux iid q db.inventory ⟨item, hmem, hid⟩

theorem InvOK_setQuantity {db : DBState} {iid q : Int} (h : InvOK db) (hq : 0 ≤ q) :
    InvOK (setQuantity db iid q) := by
  intro it hmem
  simp only [setQuantity, List.mem_map] at hmem
  obtain ⟨it0, hm0, rfl⟩ := hmem
  split
  · exact hq
  · exact h it0 hm0

theorem processDraw_bills (st : RunState) (n : String) (q : Int) :
    ((processDraw st n q).1).db.bills = st.db.bills := by
  unfold processDraw
  cases h : findItemByName st.db n with
  | none => rfl
  | some item =>
    by_cases hq : q > item.quantity
    · simp [hq]
    · simp [hq, setQuantity_bills]

theorem runEvents_bills (evs : List BillEvent) :
    ∀ st : RunState, ((runEvents st evs).1).db.bills = st.db.bills := by
  induction evs with
  | nil => intro st; rfl
  | cons e rest ih =>
    intro st
    cases e with
    | abort => rfl
    | draw n q =>
      calc ((runEvents st (BillEvent.draw n q :: rest)).1).db.bills
          = ((runEvents (processDraw st n q).1 rest).1).db.bills := rfl
        _ = ((processDraw st n q).1).db.bills := ih _
        _ = st.db.bills := processDraw_bills st n q

theorem InvOK_processDraw {st : RunState} (h : InvOK st.db) (n : String) (q : Int) :
    InvOK ((processDraw st n q).1).db := by
  unfold processDraw
  cases hf : findItemByName st.db n with
  | none => exact h
  | some item =>
    by_cases hq : q > item.quantity
    · simpa [hq] using h
    · have hge : 0 ≤ item.quantity - q := by omega
      simpa [hq] using InvOK_setQuantity h hge

theorem InvOK_runEvents (evs : List BillEvent) :
    ∀ st : RunState, InvOK st.db → InvOK ((runEvents st evs).1).db := by
  induction evs with
  | nil => intro st h; exact h
  | cons e rest ih =>
    intro st h
    cases e with
    | abort => exact h
    | draw n q => exact ih _ (InvOK_processDraw h n q)

theorem runEvents_total (evs : List BillEvent) :
    ∀ st : RunState, ((runEvents st evs).1).total_amount
      = st.total_amount + (lineCosts st.db evs).sum := by
  induction evs with
  | nil => intro st; simp [runEvents, lineCosts]
  | cons e rest ih =>
    intro st
    cases e with
    | abort => simp [runEvents, lineCosts]
    | draw n q =>
      have hstep : (runEvents st (BillEvent.draw n q :: rest)).1
          = (runEvents (processDraw st n q).1 rest).1 := rfl
      cases hf : findItemByName st.db n with
      | none =>
        have h1 : (processDraw st n q).1 = st := by simp [processDraw, hf]
        rw [hstep, h1, ih st]
        simp [lineCosts, hf]
      | some item =>
        by_cases hq : q > item.quantity
        · have h1 : (processDraw st n q).1 = st := by simp [processDraw, hf, hq]
          rw [hstep, h1, ih st]
          simp [lineCosts, hf, hq]
        · have h1 : (processDraw st n q).1 =
              ⟨setQuantity st.db item.item_id (item.quantity - q),
               st.bill_items ++ [n ++ " x" ++ toString q ++ ": $"
                 ++ fmt2 (item.price_per_unit * (q : ℚ))],
               st.total_amount + item.price_per_unit * (q : ℚ)⟩ := by
            simp [processDraw, hf, hq]
          rw [hstep, h1, ih _]
          simp [lineCosts, hf, hq]
          ring

/-! ### The claims -/

/-- C2: for an inventory item currently storing `quantity` and any integer
`change`, `update_stock` succeeds when `quantity + change ≥ 0` and the stored
quantity becomes `quantity + change`; when `quantity + change < 0` it is
refused and the store is unchanged. -/
theorem update_stock_spec (db : DBState) (name : String) (change : Int)
    (item : InventoryItem) (hfind : findItemByName db name = some item) :
    (item.quantity + change < 0 →
      update_stock db name change = (db, StockUpdateResult.negativeStock)) ∧
    (0 ≤ item.quantity + change →
      (update_stock db name change).2 = StockUpdateResult.updated (item.quantity + change) ∧
      getQuantity (update_stock db name change).1 item.item_id
        = some (item.quantity + change)) := by
  constructor
  · intro hneg
    simp [update_stock, hfind, hneg]
  · intro hpos
    have hlt : ¬ (item.quantity + change < 0) := by omega
    refine ⟨by simp [update_stock, hfind, hlt], ?_⟩
    simp only [update_stock, hfind, hlt, if_false]
    exact getQuantity_setQuantity (findItemByName_mem hfind) rfl _

section
attribute [local semireducible] Rat.mul Rat.add Rat.sub Rat.inv

/-- Witness for C2 at `change = -5` on the sample store. -/
theorem update_stock_spec_witness :
    (findItemByName sampleDB "Paracetamol" = some sampleItem) ∧
    ((sampleItem.quantity + (-5) < 0 →
      update_stock sampleDB "Paracetamol" (-5) = (sampleDB, StockUpdateResult.negativeStock)) ∧
    (0 ≤ sampleItem.quantity + (-5) →
      (update_stock sampleDB "Paracetamol" (-5)).2
        = StockUpdateResult.updated (sampleItem.quantity + (-5)) ∧
      getQuantity (update_stock sampleDB "Paracetamol" (-5)).1 sampleItem.item_id
        = some (sampleItem.quantity + (-5)))) :=
  ⟨by decide, update_stock_spec sampleDB "Paracetamol" (-5) sampleItem (by decide)⟩

end

theorem initialRunState_db (db : DBState) (fee : Option ℚ) :
    (initialRunState db fee).db = db := by
  cases fee <;> rfl

theorem initialRunState_total (db : DBState) (fee : Option ℚ) :
    (initialRunState db fee).total_amount = feeTotal fee := by
  cases fee <;> rfl

/-- C4: a draw whose item exists and whose requested quantity is at most the
available stock succeeds: the stored quantity becomes `available - quantity`,
the line `"<name> x<quantity>: $<cost>"` with `cost = price_per_unit * quantity`
is appended, and the running total grows by `cost`. -/
theorem draw_success_spec (st : RunState) (name : String) (req : Int)
    (item : InventoryItem) (hfind : findItemByName st.db name = some item)
    (hreq : req ≤ item.quantity) :
    (processDraw st name req).2 = DrawResult.added (item.price_per_unit * (req : ℚ)) ∧
    getQuantity ((processDraw st name req).1).db item.item_id = some (item.quantity - req) ∧
    ((processDraw st name req).1).bill_items = st.bill_items
      ++ [name ++ " x" ++ toString req ++ ": $" ++ fmt2 (item.price_per_unit * (req : ℚ))] ∧
    ((processDraw st name req).1).total_amount
      = st.total_amount + item.price_per_unit * (req : ℚ) := by
  have hq : ¬ (req > item.quantity) := by omega
  refine ⟨by simp [processDraw, hfind, hq], ?_,
    by simp [processDraw, hfind, hq], by simp [processDraw, hfind, hq]⟩
  have hdb : ((processDraw st name req).1).db
      = setQuantity st.db item.item_id (item.quantity - req) := by
    simp [processDraw, hfind, hq]
  rw [hdb]
  exact getQuantity_setQuantity (findItemByName_mem hfind) rfl _

/-- C5: a draw whose requested quantity exceeds the available stock fails
carrying the available count, adds no line, changes no quantity, and the
item loop goes on with the remaining events. -/
theorem draw_insufficient_spec (st : RunState) (name : String) (req : Int)
    (item : InventoryItem) (rest : List BillEvent)
    (hfind : findItemByName st.db name = some item)
    (hreq : item.quantity < req) :
    processDraw st name req = (st, DrawResult.insufficient item.quantity) ∧
    runEvents st (BillEvent.draw name req :: rest) = runEvents st rest := by
  have hq : req > item.quantity := hreq
  have h1 : processDraw st name req = (st, DrawResult.insufficient item.quantity) := by
    simp [processDraw, hfind, hq]
  refine ⟨h1, ?_⟩
  show runEvents (processDraw st name req).1 rest = runEvents st rest
  rw [h1]

/-- C9: the item loop never checks that a requested quantity is positive, so a
zero or negative request is accepted whenever the item exists and stock is
non-negative; a negative request grows the stored quantity by its magnitude
and, at a positive unit price, appends a negative-cost line that lowers the
running total. -/
theorem negative_draw_spec (st : RunState) (name : String) (req : Int)
    (item : InventoryItem) (hfind : findItemByName st.db name = some item)
    (hreq : req ≤ 0) (hinv : 0 ≤ item.quantity) :
    (processDraw st name req).2 = DrawResult.added (item.price_per_unit * (req : ℚ)) ∧
    getQuantity ((processDraw st name req).1).db item.item_id = some (item.quantity - req) ∧
    ((processDraw st name req).1).bill_items = st.bill_items
      ++ [name ++ " x" ++ toString req ++ ": $" ++ fmt2 (item.price_per_unit * (req : ℚ))] ∧
    (req < 0 → item.quantity < item.quantity - req) ∧
    (req < 0 → 0 < item.price_per_unit →
      item.price_per_unit * (req : ℚ) < 0 ∧
      ((processDraw st name req).1).total_amount < st.total_amount) := by
  have hq : ¬ (req > item.quantity) := by omega
  refine ⟨by simp [processDraw, hfind, hq], ?_,
    by simp [processDraw, hfind, hq], by omega, ?_⟩
  · have hdb : ((processDraw st name req).1).db
        = setQuantity st.db item.item_id (item.quantity - req) := by
      simp [processDraw, hfind, hq]
    rw [hdb]
    exact getQuantity_setQuantity (findItemByName_mem hfind) rfl _
  · intro hneg hprice
    have hcast : ((req : ℚ)) < 0 := by exact_mod_cast hneg
    have hcost : item.price_per_unit * (req : ℚ) < 0 :=
      mul_neg_of_pos_of_neg hprice hcast
    refine ⟨hcost, ?_⟩
    have htot : ((processDraw st name req).1).total_amount
        = st.total_amount + item.price_per_unit * (req : ℚ) := by
      simp [processDraw, hfind, hq]
    rw [htot]
    linarith

section
attribute [local semireducible] Rat.mul Rat.add Rat.sub Rat.inv

/-- Witness for C4: Scenario A — quantity 50, draw 5, price 2 per unit. -/
theorem draw_success_spec_witness :
    (findItemByName sampleRun.db "Paracetamol" = some sampleItem) ∧
    ((5 : Int) ≤ sampleItem.quantity) ∧
    (fmt2 (sampleItem.price_per_unit * (((5 : Int)) : ℚ)) = "10.00") ∧
    ((processDraw sampleRun "Paracetamol" 5).2
        = DrawResult.added (sampleItem.price_per_unit * (((5 : Int)) : ℚ)) ∧
     getQuantity ((processDraw sampleRun "Paracetamol" 5).1).db sampleItem.item_id
        = some (sampleItem.quantity - 5) ∧
     ((processDraw sampleRun "Paracetamol" 5).1).bill_items = sampleRun.bill_items
        ++ ["Paracetamol" ++ " x" ++ toString (5 : Int) ++ ": $"
            ++ fmt2 (sampleItem.price_per_unit * (((5 : Int)) : ℚ))] ∧
     ((processDraw sampleRun "Paracetamol" 5).1).total_amount
        = sampleRun.total_amount + sampleItem.price_per_unit * (((5 : Int)) : ℚ)) :=
  ⟨by decide, by decide, by decide,
   draw_success_spec sampleRun "Paracetamol" 5 sampleItem (by decide) (by decide)⟩

/-- Witness for C5: draw 100 against 50 in stock; the loop goes on. -/
theorem draw_insufficient_spec_witness :
    (findItemByName sampleRun.db "Paracetamol" = some sampleItem) ∧
    (sampleItem.quantity < 100) ∧
    (processDraw sampleRun "Paracetamol" 100
        = (sampleRun, DrawResult.insufficient sampleItem.quantity) ∧
     runEvents sampleRun [BillEvent.draw "Paracetamol" 100] = runEvents sampleRun []) :=
  ⟨by decide, by decide,
   draw_insufficient_spec sampleRun "Paracetamol" 100 sampleItem [] (by decide) (by decide)⟩

/-- Witness for C9: draw -3 against 50 in stock at price 2. -/
theorem negative_draw_spec_witness :
    (findItemByName sampleRun.db "Paracetamol" = some sampleItem) ∧
    ((-3 : Int) ≤ 0) ∧ ((0 : Int) ≤ sampleItem.quantity) ∧
    ((processDraw sampleRun "Paracetamol" (-3)).2
        = DrawResult.added (sampleItem.price_per_unit * (((-3 : Int)) : ℚ)) ∧
     getQuantity ((processDraw sampleRun "Paracetamol" (-3)).1).db sampleItem.item_id
        = some (sampleItem.quantity - (-3)) ∧
     ((processDraw sampleRun "Paracetamol" (-3)).1).bill_items = sampleRun.bill_items
        ++ ["Paracetamol" ++ " x" ++ toString (-3 : Int) ++ ": $"
            ++ fmt2 (sampleItem.price_per_unit * (((-3 : Int)) : ℚ))] ∧
     ((-3 : Int) < 0 → sampleItem.quantity < sampleItem.quantity - (-3)) ∧
     ((-3 : Int) < 0 → 0 < sampleItem.price_per_unit →
       sampleItem.price_per_unit * (((-3 : Int)) : ℚ) < 0 ∧
       ((processDraw sampleRun "Paracetamol" (-3)).1).total_amount
          < sampleRun.total_amount)) :=
  ⟨by decide, by decide, by decide,
   negative_draw_spec sampleRun "Paracetamol" (-3) sampleItem (by decide) (by decide) (by decide)⟩

end

/-- C3: every core operation preserves non-negativity of all stored inventory
quantities — stock adjustment, the whole invoice flow with its draws, item
creation (where the schema CHECK rejects a negative initial quantity), and
appointment scheduling. -/
theorem inventory_nonneg_invariant :
    (∀ db name change, InvOK db → InvOK (update_stock db name change).1) ∧
    (∀ db script, InvOK db → InvOK (generate_bill db script).1) ∧
    (∀ db name category qty price reorder,
      InvOK db → InvOK (add_item db name category qty price reorder).1) ∧
    (∀ db pid did t notes, InvOK db → InvOK (schedule_appointment db pid did t notes).1) := by
  refine ⟨?_, ?_, ?_, ?_⟩
  · intro db name change h
    unfold update_stock
    cases hf : findItemByName db name with
    | none => exact h
    | some item =>
      by_cases hneg : item.quantity + change < 0
      · simpa [hneg] using h
      · have hge : 0 ≤ item.quantity + change := by omega
        simpa [hneg] using InvOK_setQuantity h hge
  · intro db script h
    have h0 : InvOK (initialRunState db script.consultation_fee).db := by
      rw [initialRunState_db]; exact h
    have hrun := InvOK_runEvents script.events _ h0
    unfold generate_bill
    cases hp : findPatient db script.pid with
    | none => exact h
    | some _ =>
      by_cases hab : (runEvents (initialRunState db script.consultation_fee) script.events).2
      · simpa [hab] using hrun
      · by_cases hneg :
          ((runEvents (initialRunState db script.consultation_fee) script.events).1).total_amount < 0
        · simpa [hab, hneg] using hrun
        · simp only [hab, hneg, if_false]
          exact hrun
  · intro db name category qty price reorder h
    unfold add_item
    by_cases hdup : (findItemByName db name).isSome
    · simpa [hdup] using h
    · by_cases hneg : qty < 0
      · simpa [hdup, hneg] using h
      · simp only [hdup, hneg, if_false, Bool.false_eq_true]
        intro it hmem
        rcases List.mem_append.mp hmem with hold | hnew
        · exact h it hold
        · simp at hnew
          subst hnew
          simpa using le_of_not_lt hneg
  · intro db pid did t notes h
    unfold schedule_appointment
    by_cases hp : (findPatient db pid).isNone
    · simpa [hp] using h
    · cases hd : findDoctor db did with
      | none => simpa [hp] using h
      | some d => simpa [hp] using h

section
attribute [local semireducible] Rat.mul Rat.add Rat.sub Rat.inv

/-- Witness for C3: all four operations run on the sample store. -/
theorem inventory_nonneg_invariant_witness :
    InvOK sampleDB ∧
    InvOK (update_stock sampleDB "Paracetamol" (-100)).1 ∧
    InvOK (generate_bill sampleDB ⟨1, some 50, [BillEvent.draw "Paracetamol" 5]⟩).1 ∧
    InvOK (add_item sampleDB "Gauze" "Medicine" 20 3 10).1 ∧
    InvOK (schedule_appointment sampleDB 1 1 "2026-01-01 10:00" "checkup").1 :=
  ⟨by decide,
   inventory_nonneg_invariant.1 sampleDB "Paracetamol" (-100) (by decide),
   inventory_nonneg_invariant.2.1 sampleDB ⟨1, some 50, [BillEvent.draw "Paracetamol" 5]⟩
     (by decide),
   inventory_nonneg_invariant.2.2.1 sampleDB "Gauze" "Medicine" 20 3 10 (by decide),
   inventory_nonneg_invariant.2.2.2 sampleDB 1 1 "2026-01-01 10:00" "checkup" (by decide)⟩

end

/-- C6: appointment scheduling checks its preconditions in order — an
unresolved patient id fails first with patient-not-found and writes nothing;
a patient that resolves but a doctor id that is not a staff row with role
`'Doctor'` fails with invalid-doctor and writes nothing; when both resolve an
appointment is appended with status `'Scheduled'`. -/
theorem schedule_appointment_spec (db : DBState) (pid did : Int) (t notes : String) :
    (findPatient db pid = none →
      schedule_appointment db pid did t notes = (db, ScheduleResult.patientNotFound)) ∧
    ((findPatient db pid).isSome → findDoctor db did = none →
      schedule_appointment db pid did t notes = (db, ScheduleResult.invalidDoctor)) ∧
    ((findPatient db pid).isSome → (findDoctor db did).isSome →
      schedule_appointment db pid did t notes
        = ({ db with appointments := db.appointments
              ++ [⟨pid, did, t, "Scheduled", notes⟩] }, ScheduleResult.confirmed)) := by
  refine ⟨?_, ?_, ?_⟩
  · intro hp
    simp [schedule_appointment, hp]
  · intro hp hd
    have hp' : ¬ (findPatient db pid).isNone := by
      simp [Option.isNone_iff_eq_none]
      exact Option.isSome_iff_ne_none.mp hp
    simp [schedule_appointment, hp', hd]
  · intro hp hd
    obtain ⟨d, hd'⟩ := Option.isSome_iff_exists.mp hd
    have hp' : ¬ (findPatient db pid).isNone := by
      simp [Option.isNone_iff_eq_none]
      exact Option.isSome_iff_ne_none.mp hp
    simp [schedule_appointment, hp', hd', appointments_status_default]

section
attribute [local semireducible] Rat.mul Rat.add Rat.sub Rat.inv

/-- Witness for C6: missing patient id 7; nurse as doctor id 2; valid pair. -/
theorem schedule_appointment_spec_witness :
    (findPatient sampleDB 7 = none) ∧
    ((findPatient sampleDB 1).isSome ∧ findDoctor sampleDB 2 = none) ∧
    ((findPatient sampleDB 1).isSome ∧ (findDoctor sampleDB 1).isSome) ∧
    (schedule_appointment sampleDB 7 1 "2026-01-01 10:00" "checkup"
        = (sampleDB, ScheduleResult.patientNotFound) ∧
     schedule_appointment sampleDB 1 2 "2026-01-01 10:00" "checkup"
        = (sampleDB, ScheduleResult.invalidDoctor) ∧
     schedule_appointment sampleDB 1 1 "2026-01-01 10:00" "checkup"
        = ({ sampleDB with appointments := sampleDB.appointments
              ++ [⟨1, 1, "2026-01-01 10:00", "Scheduled", "checkup"⟩] },
           ScheduleResult.confirmed)) :=
  ⟨by decide, by decide, by decide,
   (schedule_appointment_spec sampleDB 7 1 "2026-01-01 10:00" "checkup").1 (by decide),
   (schedule_appointment_spec sampleDB 1 2 "2026-01-01 10:00" "checkup").2.1
     (by decide) (by decide),
   (schedule_appointment_spec sampleDB 1 1 "2026-01-01 10:00" "checkup").2.2
     (by decide) (by decide)⟩

end

/-- C7: beginning an invoice for a patient id that does not resolve fails with
patient-not-found, creates no bill and changes no inventory quantity (the
store is returned unchanged). -/
theorem begin_invoice_patient_not_found (db : DBState) (script : BillScript)
    (hp : findPatient db script.pid = none) :
    generate_bill db script = (db, BillResult.patientNotFound) ∧
    (generate_bill db script).1.bills = db.bills ∧
    (generate_bill db script).1.inventory = db.inventory := by
  have h1 : generate_bill db script = (db, BillResult.patientNotFound) := by
    simp [generate_bill, hp]
  exact ⟨h1, by rw [h1], by rw [h1]⟩

section
attribute [local semireducible] Rat.mul Rat.add Rat.sub Rat.inv

/-- Witness for C7: Scenario C — patient id 7 does not exist. -/
theorem begin_invoice_patient_not_found_witness :
    (findPatient sampleDB 7 = none) ∧
    (generate_bill sampleDB ⟨7, some 50, [BillEvent.draw "Paracetamol" 5]⟩
        = (sampleDB, BillResult.patientNotFound) ∧
     (generate_bill sampleDB ⟨7, some 50, [BillEvent.draw "Paracetamol" 5]⟩).1.bills
        = sampleDB.bills ∧
     (generate_bill sampleDB ⟨7, some 50, [BillEvent.draw "Paracetamol" 5]⟩).1.inventory
        = sampleDB.inventory) :=
  ⟨by decide,
   begin_invoice_patient_not_found sampleDB ⟨7, some 50, [BillEvent.draw "Paracetamol" 5]⟩
     (by decide)⟩

end

/-- C8: every stock debit of the item loop commits on its own, so when the
session aborts mid-composition the persisted store is exactly the state the
draws had already produced — the debits stay — while the bills table still
holds no row for the invoice. -/
theorem abort_keeps_debits_no_bill (db : DBState) (script : BillScript) (p : Patient)
    (hp : findPatient db script.pid = some p)
    (hab : (runEvents (initialRunState db script.consultation_fee) script.events).2 = true) :
    (generate_bill db script).2 = BillResult.aborted ∧
    (generate_bill db script).1.bills = db.bills ∧
    (generate_bill db script).1
      = ((runEvents (initialRunState db script.consultation_fee) script.events).1).db := by
  have h1 : generate_bill db script
      = (((runEvents (initialRunState db script.consultation_fee) script.events).1).db,
         BillResult.aborted) := by
    simp [generate_bill, hp, hab]
  refine ⟨by rw [h1], ?_, by rw [h1]⟩
  rw [h1]
  show ((runEvents (initialRunState db script.consultation_fee) script.events).1).db.bills
      = db.bills
  rw [runEvents_bills, initialRunState_db]

section
attribute [local semireducible] Rat.mul Rat.add Rat.sub Rat.inv

/-- Witness for C8: a successful draw of 5 followed by an abort leaves the
stock at 45 with no bill row written. -/
theorem abort_keeps_debits_no_bill_witness :
    (findPatient sampleDB 1 = some ⟨1, "Alice"⟩) ∧
    ((runEvents (initialRunState sampleDB none)
        [BillEvent.draw "Paracetamol" 5, BillEvent.abort]).2 = true) ∧
    (getQuantity (generate_bill sampleDB
        ⟨1, none, [BillEvent.draw "Paracetamol" 5, BillEvent.abort]⟩).1 1 = some 45) ∧
    ((generate_bill sampleDB
        ⟨1, none, [BillEvent.draw "Paracetamol" 5, BillEvent.abort]⟩).2
        = BillResult.aborted ∧
     (generate_bill sampleDB
        ⟨1, none, [BillEvent.draw "Paracetamol" 5, BillEvent.abort]⟩).1.bills
        = sampleDB.bills ∧
     (generate_bill sampleDB
        ⟨1, none, [BillEvent.draw "Paracetamol" 5, BillEvent.abort]⟩).1
        = ((runEvents (initialRunState sampleDB none)
            [BillEvent.draw "Paracetamol" 5, BillEvent.abort]).1).db) :=
  ⟨by decide, by decide, by decide,
   abort_keeps_debits_no_bill sampleDB
     ⟨1, none, [BillEvent.draw "Paracetamol" 5, BillEvent.abort]⟩
     ⟨1, "Alice"⟩ (by decide) (by decide)⟩

end

theorem generate_bill_inserted_shape (db : DBState) (script : BillScript) (p : Patient)
    (hp : findPatient db script.pid = some p)
    (hab : (runEvents (initialRunState db script.consultation_fee) script.events).2 = false)
    (hnn : ¬ ((runEvents (initialRunState db script.consultation_fee)
        script.events).1).total_amount < 0) :
    generate_bill db script
      = ({ ((runEvents (initialRunState db script.consultation_fee) script.events).1).db with
            bills := ((runEvents (initialRunState db script.consultation_fee)
                script.events).1).db.bills
              ++ [⟨script.pid,
                   String.intercalate "; " ((runEvents (initialRunState db
                     script.consultation_fee) script.events).1).bill_items,
                   ((runEvents (initialRunState db script.consultation_fee)
                     script.events).1).total_amount, "Unpaid"⟩] },
         BillResult.invoiceInserted ((runEvents (initialRunState db
           script.consultation_fee) script.events).1).total_amount) := by
  simp [generate_bill, hp, hab, hnn]

theorem generate_bill_inserted_inv {db : DBState} {script : BillScript} {t : ℚ}
    (hres : (generate_bill db script).2 = BillResult.invoiceInserted t) :
    (findPatient db script.pid).isSome ∧
    (runEvents (initialRunState db script.consultation_fee) script.events).2 = false ∧
    ¬ ((runEvents (initialRunState db script.consultation_fee)
        script.events).1).total_amount < 0 ∧
    t = ((runEvents (initialRunState db script.consultation_fee)
        script.events).1).total_amount := by
  cases hp : findPatient db script.pid with
  | none => simp [generate_bill, hp] at hres
  | some p =>
    by_cases hab : (runEvents (initialRunState db script.consultation_fee) script.events).2
    · simp [generate_bill, hp, hab] at hres
    · by_cases hneg : ((runEvents (initialRunState db script.consultation_fee)
          script.events).1).total_amount < 0
      · simp [generate_bill, hp, hab, hneg] at hres
      · have hab' : (runEvents (initialRunState db script.consultation_fee)
            script.events).2 = false := by simpa using hab
        refine ⟨by simp [hp], hab', hneg, ?_⟩
        simp [generate_bill, hp, hab, hneg] at hres
        exact hres.symm

/-- C10: every bill row that invoice finalization writes has `payment_status`
equal to `'Unpaid'`, set explicitly in the INSERT, not the schema default
`'Pending'`. -/
theorem bill_payment_status_unpaid (db : DBState) (script : BillScript) (t : ℚ)
    (hres : (generate_bill db script).2 = BillResult.invoiceInserted t) :
    ∃ b : Bill, (generate_bill db script).1.bills = db.bills ++ [b] ∧
      b.payment_status = "Unpaid" ∧
      bills_payment_status_default = "Pending" ∧
      b.payment_status ≠ bills_payment_status_default := by
  obtain ⟨hps, hab, hneg, ht⟩ := generate_bill_inserted_inv hres
  obtain ⟨p, hp⟩ := Option.isSome_iff_exists.mp hps
  have hshape := generate_bill_inserted_shape db script p hp hab hneg
  have hbills : ((runEvents (initialRunState db script.consultation_fee)
      script.events).1).db.bills = db.bills := by
    rw [runEvents_bills, initialRunState_db]
  refine ⟨⟨script.pid,
      String.intercalate "; " ((runEvents (initialRunState db
        script.consultation_fee) script.events).1).bill_items,
      ((runEvents (initialRunState db script.consultation_fee)
        script.events).1).total_amount, "Unpaid"⟩, ?_, rfl, rfl,
      by simp [bills_payment_status_default]⟩
  rw [hshape]
  show ((runEvents (initialRunState db script.consultation_fee)
      script.events).1).db.bills ++ _ = _
  rw [hbills]

section
attribute [local semireducible] Rat.mul Rat.add Rat.sub Rat.inv

/-- Witness for C10: fee 50 plus a draw of 5 at price 2 inserts a bill with
status `'Unpaid'`. -/
theorem bill_payment_status_unpaid_witness :
    ((generate_bill sampleDB ⟨1, some 50, [BillEvent.draw "Paracetamol" 5]⟩).2
        = BillResult.invoiceInserted 60) ∧
    (∃ b : Bill,
      (generate_bill sampleDB ⟨1, some 50, [BillEvent.draw "Paracetamol" 5]⟩).1.bills
        = sampleDB.bills ++ [b] ∧
      b.payment_status = "Unpaid" ∧
      bills_payment_status_default = "Pending" ∧
      b.payment_status ≠ bills_payment_status_default) :=
  ⟨by decide,
   bill_payment_status_unpaid sampleDB ⟨1, some 50, [BillEvent.draw "Paracetamol" 5]⟩ 60
     (by decide)⟩

end

/-- C1: when `generate_bill` finalizes an invoice, the persisted bill's
`total_amount` is exactly — hence to the cent — the sum of the line costs: the
consultation fee plus `price_per_unit * quantity` for every accepted draw.
The stored total is the full-precision running sum; `fmt2` two-decimal
rounding happens only inside the formatted line and display strings. -/
theorem bill_total_exact_sum (db : DBState) (script : BillScript) (t : ℚ)
    (hres : (generate_bill db script).2 = BillResult.invoiceInserted t) :
    ∃ b : Bill, (generate_bill db script).1.bills = db.bills ++ [b] ∧
      b.total_amount = t ∧
      b.total_amount = feeTotal script.consultation_fee + (lineCosts db script.events).sum := by
  obtain ⟨hps, hab, hneg, ht⟩ := generate_bill_inserted_inv hres
  obtain ⟨p, hp⟩ := Option.isSome_iff_exists.mp hps
  have hshape := generate_bill_inserted_shape db script p hp hab hneg
  have hbills : ((runEvents (initialRunState db script.consultation_fee)
      script.events).1).db.bills = db.bills := by
    rw [runEvents_bills, initialRunState_db]
  have htot : ((runEvents (initialRunState db script.consultation_fee)
      script.events).1).total_amount
      = feeTotal script.consultation_fee + (lineCosts db script.events).sum := by
    rw [runEvents_total, initialRunState_total, initialRunState_db]
  refine ⟨⟨script.pid,
      String.intercalate "; " ((runEvents (initialRunState db
        script.consultation_fee) script.events).1).bill_items,
      ((runEvents (initialRunState db script.consultation_fee)
        script.events).1).total_amount, "Unpaid"⟩, ?_, ht.symm, htot⟩
  rw [hshape]
  show ((runEvents (initialRunState db script.consultation_fee)
      script.events).1).db.bills ++ _ = _
  rw [hbills]

section
attribute [local semireducible] Rat.mul Rat.add Rat.sub Rat.inv

/-- Witness for C1: Scenario-E-like session — fee 50, draw 5 at price 2;
the persisted total is exactly 50 + 10 = 60. -/
theorem bill_total_exact_sum_witness :
    ((generate_bill sampleDB ⟨1, some 50, [BillEvent.draw "Paracetamol" 5]⟩).2
        = BillResult.invoiceInserted 60) ∧
    (feeTotal (some (50 : ℚ))
        + (lineCosts sampleDB [BillEvent.draw "Paracetamol" 5]).sum = 60) ∧
    (∃ b : Bill,
      (generate_bill sampleDB ⟨1, some 50, [BillEvent.draw "Paracetamol" 5]⟩).1.bills
        = sampleDB.bills ++ [b] ∧
      b.total_amount = 60 ∧
      b.total_amount = feeTotal (some (50 : ℚ))
        + (lineCosts sampleDB [BillEvent.draw "Paracetamol" 5]).sum) :=
  ⟨by decide, by decide,
   bill_total_exact_sum sampleDB ⟨1, some 50, [BillEvent.draw "Paracetamol" 5]⟩ 60
     (by decide)⟩

end
